import Mathlib

/-!
Verification of the per-driver telemetry buffering and windowing engine of
`src/insights/driver_telemetry_window.py` (class `DriverTelemetryWindow`).

The engine state (`SessionState`) collects the four mutable engine fields of
the widget: `_time_buffers`, `_lap_buffers`, `_lap_lengths` and
`_circuit_length_m`.  Python dictionaries are embedded as association lists
(`List (String × α)`) with in-place update (`aset`); Python floats are
embedded as `ℚ`; absent dictionary entries are `Option`.

`appendSample` embeds `_append_sample`, `ensureBuffers` embeds
`_ensure_buffers`, `onTelemetryData` embeds `on_telemetry_data` (its engine
part: the guards, the circuit-length capture and the per-driver append loop;
the widget-refresh and canvas calls touch no engine state), and `redraw`
embeds `_redraw`/`_redraw_time`/`_redraw_lap`, producing the data handed to
the plot lines plus the x-axis limits (`none` = the `_clear_lines` path,
which leaves the axes untouched).
-/

namespace F1Replay

/-- `_TIME_WINDOW = 30` (seconds kept in rolling-time mode). -/
def TIME_WINDOW : ℚ := 30

/-- One raw per-driver record of a frame: `{speed, gear, throttle, brake,
dist, lap}`, every field optional.  `gear` arrives as a small integer
(`int(...)` in the source is the identity on it). -/
structure RawDriver where
  speed : Option ℚ
  gear : Option Int
  throttle : Option ℚ
  brake : Option ℚ
  dist : Option ℚ
  lap : Option Int
  deriving DecidableEq, Repr

/-- One element of a `_time_buffers` deque:
`{"t", "speed", "gear", "throttle", "brake"}`. -/
structure TimeSample where
  t : ℚ
  speed : ℚ
  gear : Int
  throttle : ℚ
  brake : ℚ
  deriving DecidableEq, Repr

/-- One element of a `_lap_buffers[code]["samples"]` list:
`{"dist", "speed", "gear", "throttle", "brake"}` with `dist` lap-relative. -/
structure LapSample where
  dist : ℚ
  speed : ℚ
  gear : Int
  throttle : ℚ
  brake : ℚ
  deriving DecidableEq, Repr

/-- A `_lap_buffers` entry: `{"lap": None, "start_dist": 0.0, "samples": []}`. -/
structure LapBuffer where
  lap : Option Int
  start_dist : ℚ
  samples : List LapSample
  deriving DecidableEq, Repr

/-- The freshly created lap buffer of `_ensure_buffers`. -/
def emptyLapBuffer : LapBuffer := ⟨none, 0, []⟩

/-- The engine fields of the widget. -/
structure SessionState where
  time_buffers : List (String × List TimeSample)
  lap_buffers : List (String × LapBuffer)
  lap_lengths : List (String × ℚ)
  circuit_length_m : Option ℚ
  deriving DecidableEq, Repr

/-- The state built in `__init__`: every dictionary empty, no circuit length. -/
def initialState : SessionState := ⟨[], [], [], none⟩

/-- Python dictionary read: `d.get(k)`. -/
def alookup {α : Type} (k : String) : List (String × α) → Option α
  | [] => none
  | p :: rest => if p.1 = k then some p.2 else alookup k rest

/-- Python dictionary write `d[k] = v`: replace in place, append if new. -/
def aset {α : Type} (k : String) (v : α) : List (String × α) → List (String × α)
  | [] => [(k, v)]
  | p :: rest => if p.1 = k then (k, v) :: rest else p :: aset k v rest

/-- `_ensure_buffers(code)`: create the per-driver deque and lap buffer on
first sighting. -/
def ensureBuffers (st : SessionState) (code : String) : SessionState :=
  let st1 := match alookup code st.time_buffers with
    | none => { st with time_buffers := st.time_buffers ++ [(code, [])] }
    | some _ => st
  match alookup code st1.lap_buffers with
  | none => { st1 with lap_buffers := st1.lap_buffers ++ [(code, emptyLapBuffer)] }
  | some _ => st1

/-- The eviction loop `while tb and tb[0]["t"] < cutoff: tb.popleft()`. -/
def pruneOld (cutoff : ℚ) (tb : List TimeSample) : List TimeSample :=
  tb.dropWhile (fun s => decide (s.t < cutoff))

/-- `_append_sample(code, driver, session_t)`: normalize the raw fields
(missing number → 0, brake fraction × 100), push into the rolling time
buffer and evict stale entries, then run lap-rollover detection and push the
lap-relative sample. -/
def appendSample (st : SessionState) (code : String) (driver : RawDriver)
    (session_t : ℚ) : SessionState :=
  let st0 := ensureBuffers st code
  let speed : ℚ := driver.speed.getD 0
  let gear : Int := driver.gear.getD 0
  let throttle : ℚ := driver.throttle.getD 0
  let brake : ℚ := driver.brake.getD 0 * 100
  let dist : ℚ := driver.dist.getD 0
  let lap : Option Int := driver.lap
  let tb0 := (alookup code st0.time_buffers).getD []
  let tb1 := pruneOld (session_t - TIME_WINDOW)
    (tb0 ++ [⟨session_t, speed, gear, throttle, brake⟩])
  let lb0 := (alookup code st0.lap_buffers).getD emptyLapBuffer
  let doReset : Bool := match lap with
    | some l => decide (¬ lb0.lap = some l)
    | none => false
  let lengths1 := if doReset then
      match lb0.samples.getLast? with
      | some lastS => aset code lastS.dist st0.lap_lengths
      | none => st0.lap_lengths
    else st0.lap_lengths
  let lb1 := if doReset then (⟨lap, dist, []⟩ : LapBuffer) else lb0
  let lapDist : ℚ := dist - lb1.start_dist
  let lb2 : LapBuffer :=
    ⟨lb1.lap, lb1.start_dist, lb1.samples ++ [⟨lapDist, speed, gear, throttle, brake⟩]⟩
  { time_buffers := aset code tb1 st0.time_buffers
    lap_buffers := aset code lb2 st0.lap_buffers
    lap_lengths := lengths1
    circuit_length_m := st0.circuit_length_m }

/-- The engine-relevant shape of the `"frame"` value of an incoming message:
`t` and the per-driver mapping, either possibly absent/empty. -/
structure FrameData where
  t : Option ℚ
  drivers : List (String × RawDriver)
  deriving DecidableEq, Repr

/-- An incoming message of `on_telemetry_data`: an optional `"frame"` and an
optional top-level `"circuit_length_m"`.  A missing or falsy (empty) frame
is embedded as `frame = none` or as a frame with no drivers; both are
rejected by the guards before any state is touched, exactly as in the
source. -/
structure TelemetryData where
  frame : Option FrameData
  circuit_length_m : Option ℚ
  deriving DecidableEq, Repr

/-- `on_telemetry_data(data)`: guard on a missing/empty frame and on an empty
driver mapping, capture the circuit length the first time a truthy value
arrives, then append one sample per driver with the frame's session time
(`float(frame.get("t") or 0)`). -/
def onTelemetryData (st : SessionState) (data : TelemetryData) : SessionState :=
  match data.frame with
  | none => st
  | some fr =>
    if fr.drivers = [] then st
    else
      let st1 := match st.circuit_length_m, data.circuit_length_m with
        | none, some c => if ¬ c = 0 then { st with circuit_length_m := some c } else st
        | _, _ => st
      let session_t : ℚ := fr.t.getD 0
      fr.drivers.foldl (fun s p => appendSample s p.1 p.2 session_t) st1

/-- A whole stream: fold `on_telemetry_data` over the messages in order,
starting from the freshly constructed widget state. -/
def ingestAll (frames : List TelemetryData) : SessionState :=
  frames.foldl onTelemetryData initialState

/-- The x-axis mode selector: `"time" | "lap"`. -/
inductive Mode
  | time
  | lap
  deriving DecidableEq, Repr

/-- What one `_redraw` pass hands to the renderer: the data of the four plot
lines plus the x-limits; `xlim = none` is the `_clear_lines` path, which
sets every line empty and leaves the axes untouched. -/
structure RenderOut where
  xs : List ℚ
  speeds : List ℚ
  gears : List Int
  throttles : List ℚ
  brakes : List ℚ
  xlim : Option (ℚ × ℚ)
  deriving DecidableEq, Repr

/-- The `_clear_lines()` output. -/
def clearLines : RenderOut := ⟨[], [], [], [], [], none⟩

/-- Python `a or b` on a float-or-None left operand: `None` and `0.0` are
falsy. -/
def pyOr (a : Option ℚ) (b : ℚ) : ℚ :=
  match a with
  | some x => if x = 0 then b else x
  | none => b

/-- Python `max(xs)` on a list known at the call site to be non-empty
(`max([])` would raise; every use below is guarded). -/
def listMax : List ℚ → ℚ
  | [] => 0
  | x :: xs => xs.foldl max x

/-- `_redraw_time(code)`: empty or missing buffer clears the lines;
otherwise x is session time re-based so the newest sample sits at 0 and the
limits are the fixed pair `(-_TIME_WINDOW, 0)`. -/
def redrawTime (st : SessionState) (code : String) : RenderOut × SessionState :=
  match (alookup code st.time_buffers).getD [] with
  | [] => (clearLines, st)
  | s0 :: rest =>
    let samples := s0 :: rest
    let tNow := (rest.getLastD s0).t
    (⟨samples.map (fun s => s.t - tNow),
      samples.map TimeSample.speed,
      samples.map TimeSample.gear,
      samples.map TimeSample.throttle,
      samples.map TimeSample.brake,
      some (-TIME_WINDOW, 0)⟩, st)

/-- `_redraw_lap(code)`: missing buffer or empty sample list clears the
lines; otherwise x is the stored lap-relative distance and the upper limit
resolves through `self._circuit_length_m or self._lap_lengths.get(code) or
max(xs)` (Python `or`: `None` and `0.0` fall through). -/
def redrawLap (st : SessionState) (code : String) : RenderOut × SessionState :=
  match alookup code st.lap_buffers with
  | none => (clearLines, st)
  | some lb =>
    match lb.samples with
    | [] => (clearLines, st)
    | s0 :: rest =>
      let samples := s0 :: rest
      let xs := samples.map LapSample.dist
      let lapLength := pyOr st.circuit_length_m
        (pyOr (alookup code st.lap_lengths) (listMax xs))
      (⟨xs,
        samples.map LapSample.speed,
        samples.map LapSample.gear,
        samples.map LapSample.throttle,
        samples.map LapSample.brake,
        some (0, lapLength)⟩, st)

/-- `_redraw(driver_code)`: an empty selector clears the lines, otherwise
dispatch on the x-axis mode. -/
def redraw (st : SessionState) (mode : Mode) (code : String) :
    RenderOut × SessionState :=
  if code = "" then (clearLines, st)
  else
    match mode with
    | Mode.time => redrawTime st code
    | Mode.lap => redrawLap st code

/-! ### Association-list lemmas -/

theorem alookup_aset_self {α : Type} (k : String) (v : α) (m : List (String × α)) :
    alookup k (aset k v m) = some v := by
  induction m with
  | nil => simp [aset, alookup]
  | cons p rest ih =>
    by_cases h : p.1 = k
    · simp [aset, alookup, h]
    · simp [aset, alookup, h, ih]

theorem alookup_aset_ne {α : Type} {c k : String} (h : c ≠ k) (v : α)
    (m : List (String × α)) :
    alookup c (aset k v m) = alookup c m := by
  have hk : ¬ k = c := fun e => h e.symm
  induction m with
  | nil => simp [aset, alookup, hk]
  | cons p rest ih =>
    by_cases hp : p.1 = k
    · simp [aset, alookup, hp, hk]
    · simp only [aset, if_neg hp]
      by_cases hc : p.1 = c
      · simp [alookup, hc]
      · simp [alookup, hc, ih]

theorem alookup_append_single_self {α : Type} {k : String} {m : List (String × α)}
    (h : alookup k m = none) (v : α) :
    alookup k (m ++ [(k, v)]) = some v := by
  induction m with
  | nil => simp [alookup]
  | cons p rest ih =>
    by_cases hp : p.1 = k
    · simp [alookup, hp] at h
    · simp only [alookup, if_neg hp] at h ⊢
      exact ih h

theorem alookup_append_single_ne {α : Type} {c k : String} (h : c ≠ k) (v : α)
    (m : List (String × α)) :
    alookup c (m ++ [(k, v)]) = alookup c m := by
  have hk : ¬ k = c := fun e => h e.symm
  induction m with
  | nil => simp [alookup, hk]
  | cons p rest ih =>
    by_cases hp : p.1 = c
    · simp [alookup, hp]
    · simp only [List.cons_append, alookup, if_neg hp]
      exact ih

/-! ### `ensureBuffers` projections -/

theorem ensure_lengths (st : SessionState) (code : String) :
    (ensureBuffers st code).lap_lengths = st.lap_lengths := by
  unfold ensureBuffers
  cases halt : alookup code st.time_buffers <;>
    cases hall : alookup code st.lap_buffers <;> simp [halt, hall]

theorem ensure_circuit (st : SessionState) (code : String) :
    (ensureBuffers st code).circuit_length_m = st.circuit_length_m := by
  unfold ensureBuffers
  cases halt : alookup code st.time_buffers <;>
    cases hall : alookup code st.lap_buffers <;> simp [halt, hall]

theorem ensure_time_self (st : SessionState) (code : String) :
    alookup code (ensureBuffers st code).time_buffers
      = some ((alookup code st.time_buffers).getD []) := by
  unfold ensureBuffers
  cases halt : alookup code st.time_buffers with
  | none =>
    have h1 : alookup code (st.time_buffers ++ [(code, ([] : List TimeSample))])
        = some [] := alookup_append_single_self halt []
    cases hall : alookup code ({ st with
        time_buffers := st.time_buffers ++ [(code, [])] } : SessionState).lap_buffers <;>
      simp [hall, h1]
  | some tb =>
    cases hall : alookup code st.lap_buffers <;> simp [hall, halt]

theorem ensure_lap_self (st : SessionState) (code : String) :
    alookup code (ensureBuffers st code).lap_buffers
      = some ((alookup code st.lap_buffers).getD emptyLapBuffer) := by
  unfold ensureBuffers
  cases halt : alookup code st.time_buffers with
  | none =>
    cases hall : alookup code st.lap_buffers with
    | none => simp [hall, alookup_append_single_self hall]
    | some lb => simp [hall]
  | some tb =>
    cases hall : alookup code st.lap_buffers with
    | none => simp [hall, alookup_append_single_self hall]
    | some lb => simp [hall]

theorem ensure_time_ne {c code : String} (h : c ≠ code) (st : SessionState) :
    alookup c (ensureBuffers st code).time_buffers = alookup c st.time_buffers := by
  unfold ensureBuffers
  cases halt : alookup code st.time_buffers <;>
    cases hall : alookup code ({ st with time_buffers := st.time_buffers ++ [(code, [])]
      } : SessionState).lap_buffers <;>
    cases hall2 : alookup code st.lap_buffers <;>
    simp_all [alookup_append_single_ne h]

theorem ensure_lap_ne {c code : String} (h : c ≠ code) (st : SessionState) :
    alookup c (ensureBuffers st code).lap_buffers = alookup c st.lap_buffers := by
  unfold ensureBuffers
  cases halt : alookup code st.time_buffers <;>
    cases hall : alookup code ({ st with time_buffers := st.time_buffers ++ [(code, [])]
      } : SessionState).lap_buffers <;>
    cases hall2 : alookup code st.lap_buffers <;>
    simp_all [alookup_append_single_ne h]

/-! ### `appendSample` projections -/

/-- The normalized time sample that `_append_sample` pushes into the deque:
missing numbers default to 0 and the brake fraction is scaled by 100. -/
def normTimeSample (driver : RawDriver) (session_t : ℚ) : TimeSample :=
  ⟨session_t, driver.speed.getD 0, driver.gear.getD 0, driver.throttle.getD 0,
   driver.brake.getD 0 * 100⟩

theorem appendSample_circuit (st : SessionState) (code : String) (dr : RawDriver)
    (t : ℚ) : (appendSample st code dr t).circuit_length_m = st.circuit_length_m := by
  unfold appendSample
  simp [ensure_circuit]

theorem appendSample_time_self (st : SessionState) (code : String) (dr : RawDriver)
    (t : ℚ) :
    alookup code (appendSample st code dr t).time_buffers
      = some (pruneOld (t - TIME_WINDOW)
          (((alookup code st.time_buffers).getD []) ++ [normTimeSample dr t])) := by
  unfold appendSample
  simp only [alookup_aset_self]
  rw [ensure_time_self]
  rfl

theorem appendSample_time_ne {c code : String} (h : c ≠ code) (st : SessionState)
    (dr : RawDriver) (t : ℚ) :
    alookup c (appendSample st code dr t).time_buffers = alookup c st.time_buffers := by
  unfold appendSample
  simp only [alookup_aset_ne h]
  exact ensure_time_ne h st

theorem appendSample_lap_ne {c code : String} (h : c ≠ code) (st : SessionState)
    (dr : RawDriver) (t : ℚ) :
    alookup c (appendSample st code dr t).lap_buffers = alookup c st.lap_buffers := by
  unfold appendSample
  simp only [alookup_aset_ne h]
  exact ensure_lap_ne h st

/-! ### Time-window infrastructure -/

/-- Ordering of time samples by session time. -/
def tle (a b : TimeSample) : Prop := a.t ≤ b.t

instance : IsTrans TimeSample tle := ⟨fun _ _ _ h1 h2 => le_trans h1 h2⟩

/-- Every sample surviving the eviction loop is at or after the cutoff,
provided the buffer was sorted by session time (the front-only check of the
source is complete exactly because the deque is sorted). -/
theorem pruneOld_lower (cutoff : ℚ) :
    ∀ l : List TimeSample, l.Chain' tle → ∀ x ∈ pruneOld cutoff l, cutoff ≤ x.t := by
  intro l
  induction l with
  | nil => intro _ x hx; simp [pruneOld] at hx
  | cons a as ih =>
    intro hchain x hx
    by_cases ha : a.t < cutoff
    · rw [pruneOld, List.dropWhile_cons, if_pos (by simpa using ha)] at hx
      exact ih hchain.tail x hx
    · rw [pruneOld, List.dropWhile_cons, if_neg (by simpa using ha)] at hx
      have hpw := (@List.chain'_iff_pairwise TimeSample tle _ _).mp hchain
      rcases List.mem_cons.mp hx with rfl | hx'
      · exact le_of_not_lt ha
      · exact le_trans (le_of_not_lt ha) ((List.pairwise_cons.mp hpw).1 x hx')

/-- Dropping a front segment never removes the just-appended final element. -/
theorem dropWhile_append_getLast {α : Type} (p : α → Bool) {a : α}
    (h : p a = false) :
    ∀ l : List α, ((l ++ [a]).dropWhile p).getLast? = some a := by
  intro l
  induction l with
  | nil => simp [List.dropWhile, h]
  | cons x xs ih =>
    by_cases hx : p x
    · simpa [List.dropWhile_cons, hx] using ih
    · rw [List.cons_append, List.dropWhile_cons, if_neg (by simp [hx]),
        ← List.cons_append, List.getLast?_concat]

/-- The per-buffer part of the time-window invariant: never a sample older
than the last appended one minus `_TIME_WINDOW`. -/
def BoundedBuf (tb : List TimeSample) : Prop :=
  ∀ hne : tb ≠ [], ∀ s ∈ tb, (tb.getLast hne).t - TIME_WINDOW ≤ s.t

/-- Invariant carried along a monotone stream: every buffer is sorted, below
the running session time (`bound`), and window-bounded. -/
def TimeInv (bound : ℚ) (st : SessionState) : Prop :=
  ∀ code tb, alookup code st.time_buffers = some tb →
    tb.Chain' tle ∧ (∀ s ∈ tb, s.t ≤ bound) ∧ BoundedBuf tb

theorem timeInv_mono {T T' : ℚ} (h : T ≤ T') {st : SessionState}
    (hinv : TimeInv T st) : TimeInv T' st := by
  intro code tb htb
  obtain ⟨h1, h2, h3⟩ := hinv code tb htb
  exact ⟨h1, fun s hs => le_trans (h2 s hs) h, h3⟩

theorem timeInv_initial (T : ℚ) : TimeInv T initialState := by
  intro code tb htb
  simp [initialState, alookup] at htb

theorem timeInv_congr {T : ℚ} {st st' : SessionState}
    (h : st'.time_buffers = st.time_buffers) (hinv : TimeInv T st) : TimeInv T st' := by
  intro code tb htb
  exact hinv code tb (h ▸ htb)

theorem timeInv_append {T : ℚ} {st : SessionState} (hinv : TimeInv T st)
    (code : String) (dr : RawDriver) : TimeInv T (appendSample st code dr T) := by
  intro c tb htb
  by_cases hc : c = code
  · subst hc
    rw [appendSample_time_self] at htb
    set tb0 := (alookup c st.time_buffers).getD [] with htb0
    have h0 : tb0.Chain' tle ∧ ∀ s ∈ tb0, s.t ≤ T := by
      cases halt : alookup c st.time_buffers with
      | none => simp [htb0, halt]
      | some tbznam =>
        obtain ⟨h1, h2, _⟩ := hinv c tbznam halt
        simp only [htb0, halt, Option.getD_some]
        exact ⟨h1, h2⟩
    have hns : (normTimeSample dr T).t = T := rfl
    have hch : (tb0 ++ [normTimeSample dr T]).Chain' tle := by
      rw [List.chain'_append]
      refine ⟨h0.1, List.chain'_singleton _, fun x hx y hy => ?_⟩
      simp only [List.head?_cons, Option.mem_def, Option.some.injEq] at hy
      subst hy
      obtain ⟨ys, hys⟩ := List.getLast?_eq_some_iff.mp hx
      have hxmem : x ∈ tb0 := by rw [hys]; simp
      exact le_trans (h0.2 x hxmem) (le_of_eq hns.symm)
    have hpf : (fun s : TimeSample => decide (s.t < T - TIME_WINDOW))
        (normTimeSample dr T) = false := by
      simp only [hns, decide_eq_false_iff_not, not_lt]
      have : (0 : ℚ) ≤ TIME_WINDOW := by norm_num [TIME_WINDOW]
      linarith
    have hlast : (pruneOld (T - TIME_WINDOW) (tb0 ++ [normTimeSample dr T])).getLast?
        = some (normTimeSample dr T) :=
      dropWhile_append_getLast (fun s : TimeSample => decide (s.t < T - TIME_WINDOW))
        hpf tb0
    have hsuffix : (pruneOld (T - TIME_WINDOW) (tb0 ++ [normTimeSample dr T]))
        <:+ (tb0 ++ [normTimeSample dr T]) := List.dropWhile_suffix _
    obtain rfl : tb = pruneOld (T - TIME_WINDOW) (tb0 ++ [normTimeSample dr T]) :=
      (Option.some.injEq _ _ ▸ htb).symm
    refine ⟨hch.suffix hsuffix, fun s hs => ?_, fun hne s hs => ?_⟩
    · have : s ∈ tb0 ++ [normTimeSample dr T] := hsuffix.sublist.subset hs
      rcases List.mem_append.mp this with h | h
      · exact h0.2 s h
      · simp only [List.mem_singleton] at h
        subst h
        exact le_of_eq hns
    · have hgl : (pruneOld (T - TIME_WINDOW) (tb0 ++ [normTimeSample dr T])).getLast hne
          = normTimeSample dr T := by
        have h2 := List.getLast?_eq_getLast _ hne
        rw [h2] at hlast
        exact Option.some.injEq _ _ ▸ hlast
      rw [hgl, hns]
      exact pruneOld_lower _ _ hch s hs
  · rw [appendSample_time_ne hc] at htb
    exact hinv c tb htb

theorem timeInv_foldDrivers {T : ℚ} (ds : List (String × RawDriver)) :
    ∀ st : SessionState, TimeInv T st →
      TimeInv T (ds.foldl (fun s p => appendSample s p.1 p.2 T) st) := by
  induction ds with
  | nil => intro st h; exact h
  | cons d rest ih => intro st h; exact ih _ (timeInv_append h d.1 d.2)

/-- The session time a message contributes, when it passes the ingestion
guards (`float(frame.get("t") or 0)`); `none` when the message is a no-op. -/
def effTime (data : TelemetryData) : Option ℚ :=
  match data.frame with
  | none => none
  | some fr => if fr.drivers = [] then none else some (fr.t.getD 0)

/-- The session times of the messages of a stream that actually ingest. -/
def effTimes (frames : List TelemetryData) : List ℚ := frames.filterMap effTime

/-- The session time of the last ingesting message of a stream. -/
def lastEff (frames : List TelemetryData) : ℚ := (effTimes frames).getLastD 0

theorem onData_noop {st : SessionState} {data : TelemetryData}
    (h : effTime data = none) : onTelemetryData st data = st := by
  unfold effTime at h
  unfold onTelemetryData
  cases hf : data.frame with
  | none => rfl
  | some fr =>
    rw [hf] at h
    by_cases hd : fr.drivers = [] <;> simp [hd] at h ⊢

theorem circuitCapture_time_buffers (st : SessionState) (data : TelemetryData) :
    (match st.circuit_length_m, data.circuit_length_m with
      | none, some c => if ¬ c = 0 then { st with circuit_length_m := some c } else st
      | _, _ => st).time_buffers = st.time_buffers := by
  cases st.circuit_length_m <;> cases data.circuit_length_m <;> simp
  split <;> rfl

theorem timeInv_onData {T T' : ℚ} {st : SessionState} {data : TelemetryData}
    (hinv : TimeInv T st) (heff : effTime data = some T') (hle : T ≤ T') :
    TimeInv T' (onTelemetryData st data) := by
  unfold effTime at heff
  unfold onTelemetryData
  cases hf : data.frame with
  | none => rw [hf] at heff; exact absurd heff (by simp)
  | some fr =>
    rw [hf] at heff
    dsimp only at heff ⊢
    by_cases hd : fr.drivers = []
    · rw [if_pos hd] at heff; exact absurd heff (by simp)
    · rw [if_neg hd] at heff
      rw [if_neg hd]
      have hT' : fr.t.getD 0 = T' := by simpa using heff
      rw [hT']
      exact timeInv_foldDrivers fr.drivers _
        (timeInv_congr (circuitCapture_time_buffers st data)
          (timeInv_mono hle hinv))

theorem foldl_noopAll (frames : List TelemetryData) :
    ∀ st : SessionState, effTimes frames = [] →
      frames.foldl onTelemetryData st = st := by
  induction frames with
  | nil => intro st _; rfl
  | cons f rest ih =>
    intro st h
    simp only [effTimes, List.filterMap_cons] at h
    cases he : effTime f with
    | none =>
      rw [he] at h
      rw [List.foldl_cons, onData_noop he]
      exact ih st h
    | some t => rw [he] at h; exact absurd h (by simp)

theorem ingestAll_timeInv (frames : List TelemetryData)
    (hmono : (effTimes frames).Chain' (· ≤ ·)) :
    TimeInv (lastEff frames) (ingestAll frames) := by
  induction frames using List.reverseRecOn with
  | nil => exact timeInv_initial _
  | append_singleton fs f ih =>
    have hfs : effTimes (fs ++ [f]) = effTimes fs ++ effTimes [f] := by
      simp [effTimes, List.filterMap_append]
    have hstep : ingestAll (fs ++ [f]) = onTelemetryData (ingestAll fs) f := by
      simp [ingestAll, List.foldl_append]
    cases he : effTime f with
    | none =>
      have h2 : effTimes (fs ++ [f]) = effTimes fs := by
        simp [hfs, effTimes, List.filterMap_cons, he]
      rw [hstep, onData_noop he, lastEff, h2]
      rw [h2] at hmono
      exact ih hmono
    | some T' =>
      have h2 : effTimes (fs ++ [f]) = effTimes fs ++ [T'] := by
        simp [hfs, effTimes, List.filterMap_cons, he]
      rw [h2] at hmono
      obtain ⟨hc1, _, hlink⟩ := List.chain'_append.mp hmono
      have hlast : lastEff (fs ++ [f]) = T' := by
        rw [lastEff, h2, List.getLastD_concat]
      rw [hstep, hlast]
      cases hfse : effTimes fs with
      | nil =>
        have hinit : ingestAll fs = initialState := foldl_noopAll fs initialState hfse
        rw [hinit] at *
        exact timeInv_onData (timeInv_initial T') he le_rfl
      | cons e es =>
        have hne : effTimes fs ≠ [] := by rw [hfse]; simp
        obtain ⟨x, hx⟩ : ∃ x, (effTimes fs).getLast? = some x := by
          cases h3 : (effTimes fs).getLast? with
          | none => exact absurd (List.getLast?_eq_none_iff.mp h3) hne
          | some x => exact ⟨x, rfl⟩
        have hL : (effTimes fs).getLast? = some (lastEff fs) := by
          rw [lastEff, List.getLastD_eq_getLast?, hx]
          rfl
        have hle2 : lastEff fs ≤ T' := hlink _ hL T' (by simp)
        have := ih (by rw [hfse] at hc1; rw [hfse]; exact hc1)
        exact timeInv_onData this he hle2
/-- C1: for every stream of messages whose effective session times are
monotonically non-decreasing, after each ingest call (i.e. for every prefix
of the stream) every sample retained in a competitor's time window has
`session_time ≥ latest.session_time − W` with `W = _TIME_WINDOW = 30`; the
latest appended sample of a buffer is its last element, since
`_append_sample` pushes at the back and evicts only at the front. -/
theorem c1_time_window_boundedness (frames : List TelemetryData)
    (hmono : (effTimes frames).Chain' (· ≤ ·)) (n : ℕ) (code : String)
    (tb : List TimeSample)
    (htb : alookup code (ingestAll (frames.take n)).time_buffers = some tb)
    (hne : tb ≠ []) :
    ∀ s ∈ tb, (tb.getLast hne).t - TIME_WINDOW ≤ s.t := by
  have hsub : (effTimes (frames.take n)).Sublist (effTimes frames) :=
    List.Sublist.filterMap effTime (List.take_sublist n frames)
  have hmono' : (effTimes (frames.take n)).Chain' (· ≤ ·) :=
    List.chain'_iff_pairwise.mpr
      (List.Pairwise.sublist hsub (List.chain'_iff_pairwise.mp hmono))
  exact ((ingestAll_timeInv _ hmono') code tb htb).2.2 hne

def c1dr : RawDriver := ⟨some 100, some 3, some 50, some (1/2), some 1000, some 1⟩

def c1frame (tq : ℚ) : TelemetryData := ⟨some ⟨some tq, [("A", c1dr)]⟩, none⟩

def c1frames : List TelemetryData := [c1frame 0, c1frame 40]

def c1tb : List TimeSample := [⟨40, 100, 3, 50, 50⟩]

/-- Witness for C1 at a concrete two-message stream (times 0 and 40, so the
first sample is actually evicted). -/
theorem c1_time_window_boundedness_witness :
    (effTimes c1frames).Chain' (· ≤ ·) ∧
    alookup "A" (ingestAll (c1frames.take 2)).time_buffers = some c1tb ∧
    ∀ hne : c1tb ≠ [], ∀ s ∈ c1tb, (c1tb.getLast hne).t - TIME_WINDOW ≤ s.t := by
  have hm : (effTimes c1frames).Chain' (· ≤ ·) := by
    simp [c1frames, c1frame, effTimes, effTime, List.filterMap]
  have ht : alookup "A" (ingestAll (c1frames.take 2)).time_buffers = some c1tb := by
    simp [c1frames, c1frame, c1dr, c1tb, ingestAll, onTelemetryData, appendSample,
      ensureBuffers, initialState, alookup, aset, pruneOld, TIME_WINDOW, emptyLapBuffer,
      normTimeSample, List.dropWhile_cons, List.dropWhile_nil]
    norm_num
  exact ⟨hm, ht, fun hne => c1_time_window_boundedness c1frames hm 2 "A" c1tb ht hne⟩

/-! ### Lap-buffer characterizations -/

/-- The normalized lap sample pushed by `_append_sample` when the stored
lap-relative distance is `d`. -/
def normLapSample (driver : RawDriver) (d : ℚ) : LapSample :=
  ⟨d, driver.speed.getD 0, driver.gear.getD 0, driver.throttle.getD 0,
   driver.brake.getD 0 * 100⟩

theorem appendSample_lap_reset {code : String} {dr : RawDriver} {l : Int}
    (st : SessionState) (t : ℚ) (hlap : dr.lap = some l)
    (hdiff : ¬ ((alookup code st.lap_buffers).getD emptyLapBuffer).lap = some l) :
    alookup code (appendSample st code dr t).lap_buffers
      = some ⟨some l, dr.dist.getD 0, [normLapSample dr 0]⟩
    ∧ (appendSample st code dr t).lap_lengths
      = (match ((alookup code st.lap_buffers).getD emptyLapBuffer).samples.getLast? with
         | some lastS => aset code lastS.dist st.lap_lengths
         | none => st.lap_lengths) := by
  unfold appendSample
  rw [hlap]
  simp only [ensure_lap_self, Option.getD_some, ensure_lengths,
    decide_eq_true hdiff, if_true, alookup_aset_self, List.nil_append]
  constructor
  · rw [sub_self]
    rfl
  · trivial

theorem appendSample_lap_noreset {code : String} {dr : RawDriver}
    (st : SessionState) (t : ℚ)
    (hno : dr.lap = none
      ∨ dr.lap = ((alookup code st.lap_buffers).getD emptyLapBuffer).lap) :
    alookup code (appendSample st code dr t).lap_buffers
      = some ⟨((alookup code st.lap_buffers).getD emptyLapBuffer).lap,
          ((alookup code st.lap_buffers).getD emptyLapBuffer).start_dist,
          ((alookup code st.lap_buffers).getD emptyLapBuffer).samples
            ++ [normLapSample dr (dr.dist.getD 0
                  - ((alookup code st.lap_buffers).getD emptyLapBuffer).start_dist)]⟩
    ∧ (appendSample st code dr t).lap_lengths = st.lap_lengths := by
  unfold appendSample
  rcases hno with hn | hs
  · rw [hn]
    simp only [ensure_lap_self, Option.getD_some, ensure_lengths,
      Bool.false_eq_true, if_false, alookup_aset_self]
    refine ⟨?_, ?_⟩ <;> trivial
  · cases hl : dr.lap with
    | none =>
      simp only [ensure_lap_self, Option.getD_some, ensure_lengths,
        Bool.false_eq_true, if_false, alookup_aset_self]
      refine ⟨?_, ?_⟩ <;> trivial
    | some l =>
      rw [hl] at hs
      simp only [ensure_lap_self, Option.getD_some, ensure_lengths,
        decide_eq_false (not_not_intro hs.symm), Bool.false_eq_true, if_false,
        alookup_aset_self]
      refine ⟨?_, ?_⟩ <;> trivial

def c2data (tq : ℚ) (lapN : Int) (d : ℚ) : TelemetryData :=
  ⟨some ⟨some tq, [("A", ⟨some 310, some 8, some 95, some (4/10), some d, some lapN⟩)]⟩,
   none⟩

def c2frames : List TelemetryData :=
  [c2data 0 1 100, c2data 1 1 150, c2data 2 1 200, c2data 3 2 205]

/-- C2: when the incoming lap number is present and differs from the stored
`current_lap` (including the transition from unknown — the freshly ensured
buffer has `lap = None`), `_append_sample` first records the last stored
sample's lap-relative distance as the completed lap length (when the sample
list is non-empty, otherwise the lengths mapping is untouched), then resets
the buffer to the new lap with `start_dist` equal to the incoming raw
distance and exactly the one triggering sample, stored at lap-relative
distance 0.  In particular the lap-number stream `[1,1,1,2]` with raw
distances `[100,150,200,205]` ends with one buffered sample,
`start_dist = 205` and a completed lap length of `200 − 100 = 100`. -/
theorem c2_lap_reset :
    (∀ (st : SessionState) (code : String) (dr : RawDriver) (t : ℚ) (l : Int),
      dr.lap = some l →
      ¬ ((alookup code st.lap_buffers).getD emptyLapBuffer).lap = some l →
      alookup code (appendSample st code dr t).lap_buffers
        = some ⟨some l, dr.dist.getD 0, [normLapSample dr 0]⟩
      ∧ (appendSample st code dr t).lap_lengths
        = (match ((alookup code st.lap_buffers).getD emptyLapBuffer).samples.getLast? with
           | some lastS => aset code lastS.dist st.lap_lengths
           | none => st.lap_lengths))
    ∧ (alookup "A" (ingestAll c2frames).lap_buffers).map (fun lb => lb.samples.length)
        = some 1
    ∧ (alookup "A" (ingestAll c2frames).lap_buffers).map LapBuffer.start_dist = some 205
    ∧ alookup "A" (ingestAll c2frames).lap_lengths = some 100 := by
  refine ⟨fun st code dr t l hlap hdiff => appendSample_lap_reset st t hlap hdiff,
    ?_, ?_, ?_⟩ <;>
    simp [c2frames, c2data, ingestAll, onTelemetryData, appendSample,
      ensureBuffers, initialState, alookup, aset, pruneOld, TIME_WINDOW,
      emptyLapBuffer, List.dropWhile_cons] <;>
    norm_num

def c2dr : RawDriver := ⟨some 100, some 3, some 50, some (1/2), some 77, some 5⟩

/-- Witness for C2's universally quantified part: a reset at the very first
sighting of a competitor. -/
theorem c2_lap_reset_witness :
    c2dr.lap = some 5 ∧
    ¬ ((alookup "B" initialState.lap_buffers).getD emptyLapBuffer).lap = some 5 ∧
    alookup "B" (appendSample initialState "B" c2dr 0).lap_buffers
      = some ⟨some 5, c2dr.dist.getD 0, [normLapSample c2dr 0]⟩ := by
  have h1 : c2dr.lap = some 5 := rfl
  have h2 : ¬ ((alookup "B" initialState.lap_buffers).getD emptyLapBuffer).lap
      = some 5 := by simp [initialState, alookup, emptyLapBuffer]
  exact ⟨h1, h2, (c2_lap_reset.1 initialState "B" c2dr 0 5 h1 h2).1⟩

/-! ### Circuit-length capture -/

/-- The circuit length a single message can contribute: it must pass the
ingestion guards (a frame with at least one driver) and carry a truthy
(present, nonzero) `circuit_length_m`. -/
def qualCircuit (data : TelemetryData) : Option ℚ :=
  match data.frame with
  | none => none
  | some fr =>
    if fr.drivers = [] then none
    else match data.circuit_length_m with
      | some c => if c = 0 then none else some c
      | none => none

/-- The circuit length a stream leaves behind: the first qualifying
contribution, if any. -/
def specCircuit (frames : List TelemetryData) : Option ℚ :=
  frames.findSome? qualCircuit

theorem foldDrivers_circuit (ds : List (String × RawDriver)) (T : ℚ) :
    ∀ st : SessionState,
      (ds.foldl (fun s p => appendSample s p.1 p.2 T) st).circuit_length_m
        = st.circuit_length_m := by
  induction ds with
  | nil => intro st; rfl
  | cons d rest ih =>
    intro st
    rw [List.foldl_cons, ih, appendSample_circuit]

theorem onData_circuit_some {st : SessionState} {data : TelemetryData} {c : ℚ}
    (h : st.circuit_length_m = some c) :
    (onTelemetryData st data).circuit_length_m = some c := by
  unfold onTelemetryData
  cases hf : data.frame with
  | none => exact h
  | some fr =>
    by_cases hd : fr.drivers = []
    · simp only [if_pos hd]; exact h
    · simp only [if_neg hd, foldDrivers_circuit]
      rw [h]
      cases data.circuit_length_m <;> exact h

theorem onData_circuit_of_none {st : SessionState} {data : TelemetryData}
    (h : st.circuit_length_m = none) :
    (onTelemetryData st data).circuit_length_m = qualCircuit data := by
  unfold onTelemetryData qualCircuit
  cases hf : data.frame with
  | none => exact h
  | some fr =>
    by_cases hd : fr.drivers = []
    · simp only [if_pos hd]; exact h
    · simp only [if_neg hd, foldDrivers_circuit]
      rw [h]
      cases hc : data.circuit_length_m with
      | none => exact h
      | some c =>
        by_cases hz : c = 0
        · simp [hz, h]
        · simp [hz]

theorem foldl_circuit (frames : List TelemetryData) :
    ∀ st : SessionState,
      (frames.foldl onTelemetryData st).circuit_length_m
        = (match st.circuit_length_m with
           | some c => some c
           | none => specCircuit frames) := by
  induction frames with
  | nil =>
    intro st
    cases h : st.circuit_length_m <;> simp [h, specCircuit, List.findSome?]
  | cons f rest ih =>
    intro st
    rw [List.foldl_cons]
    cases h : st.circuit_length_m with
    | some c =>
      rw [ih (onTelemetryData st f), onData_circuit_some h]
    | none =>
      rw [ih (onTelemetryData st f), onData_circuit_of_none h]
      simp only [specCircuit, List.findSome?_cons]
      cases hq : qualCircuit f <;> rfl

theorem ingestAll_circuit (frames : List TelemetryData) :
    (ingestAll frames).circuit_length_m = specCircuit frames := by
  rw [ingestAll, foldl_circuit frames initialState]
  rfl

theorem qualCircuit_ne_zero (data : TelemetryData) : qualCircuit data ≠ some 0 := by
  unfold qualCircuit
  cases data.frame with
  | none => simp
  | some fr =>
    by_cases hd : fr.drivers = []
    · simp [hd]
    · simp only [if_neg hd]
      cases data.circuit_length_m with
      | none => simp
      | some c =>
        by_cases hz : c = 0 <;> simp [hz]

theorem specCircuit_ne_zero (frames : List TelemetryData) :
    specCircuit frames ≠ some 0 := by
  intro h
  obtain ⟨d, _, hd⟩ := List.exists_of_findSome?_eq_some h
  exact qualCircuit_ne_zero d hd

def c4driver : RawDriver := ⟨some 200, some 6, some 80, some (1/4), some 500, some 1⟩

def c4frameA : TelemetryData := ⟨some ⟨some 10, [("A", c4driver)]⟩, some 5412⟩

def c4frameB : TelemetryData := ⟨some ⟨some 11, [("A", c4driver)]⟩, some 9999⟩

def c4zero : TelemetryData := ⟨some ⟨some 1, [("A", c4driver)]⟩, some 0⟩

/-- Counterexample to C4 as stated: a first ingested frame that carries
`circuit_length_m` (value `0`) while the field is unset does NOT record it —
the capture condition is Python truthiness, not presence. -/
theorem c4_counterexample :
    initialState.circuit_length_m = none
    ∧ c4zero.circuit_length_m = some 0
    ∧ (onTelemetryData initialState c4zero).circuit_length_m ≠ some 0
    ∧ (onTelemetryData initialState c4zero).circuit_length_m = none := by
  refine ⟨rfl, rfl, ?_, ?_⟩ <;>
    simp [c4zero, c4driver, onTelemetryData, appendSample, ensureBuffers,
      initialState, alookup, aset, pruneOld, TIME_WINDOW, emptyLapBuffer,
      foldDrivers_circuit]

/-- C4 (amended): `circuit_length_m` is recorded exactly once, from the
first ingested frame that carries competitor data and a present *nonzero*
circuit length while the field is not yet set (`specCircuit`), and once set
it is never overwritten by any later frame; in particular frame A carrying
`5412` followed by frame B carrying `9999` leaves `5412`. -/
theorem c4_circuit_latch :
    (∀ (st : SessionState) (data : TelemetryData) (c : ℚ),
        st.circuit_length_m = some c →
        (onTelemetryData st data).circuit_length_m = some c)
    ∧ (∀ frames : List TelemetryData,
        (ingestAll frames).circuit_length_m = specCircuit frames)
    ∧ (ingestAll [c4frameA, c4frameB]).circuit_length_m = some 5412 := by
  refine ⟨fun st data c h => onData_circuit_some h, ingestAll_circuit, ?_⟩
  rw [ingestAll_circuit]
  simp [specCircuit, List.findSome?, qualCircuit, c4frameA, c4frameB]

/-- Witness for C4's latch conjunct: a state that already holds `5412`
keeps it across the ingestion of a frame carrying `9999`. -/
theorem c4_circuit_latch_witness :
    (ingestAll [c4frameA]).circuit_length_m = some 5412
    ∧ (onTelemetryData (ingestAll [c4frameA]) c4frameB).circuit_length_m
        = some 5412 := by
  have h : (ingestAll [c4frameA]).circuit_length_m = some 5412 := by
    rw [ingestAll_circuit]
    simp [specCircuit, List.findSome?, qualCircuit, c4frameA]
  exact ⟨h, c4_circuit_latch.1 _ c4frameB 5412 h⟩

/-- C9: a present-but-zero (falsy) `circuit_length_m` is treated exactly as
an absent one — the whole ingestion is unchanged if the field is dropped —
and consequently `circuit_length_m` is, at every reachable state, either
unset or nonzero. -/
theorem c9_zero_circuit_ignored :
    (∀ (st : SessionState) (data : TelemetryData),
        data.circuit_length_m = some 0 →
        onTelemetryData st data = onTelemetryData st ⟨data.frame, none⟩)
    ∧ ∀ frames : List TelemetryData,
        (ingestAll frames).circuit_length_m ≠ some 0 := by
  constructor
  · intro st data hz
    unfold onTelemetryData
    cases hf : data.frame with
    | none => rfl
    | some fr =>
      by_cases hd : fr.drivers = []
      · simp only [if_pos hd]
      · simp only [if_neg hd]
        rw [hz]
        cases st.circuit_length_m <;> simp
  · intro frames
    rw [ingestAll_circuit]
    exact specCircuit_ne_zero frames

/-- Witness for C9's first conjunct at the concrete zero-carrying frame. -/
theorem c9_zero_circuit_ignored_witness :
    c4zero.circuit_length_m = some 0
    ∧ onTelemetryData initialState c4zero
        = onTelemetryData initialState ⟨c4zero.frame, none⟩ :=
  ⟨rfl, c9_zero_circuit_ignored.1 initialState c4zero rfl⟩

/-- C7: a message whose frame is missing (or falsy) or carries no competitor
data is a complete no-op: the returned state is the input state, every field
included — in particular a circuit length carried by such a message is NOT
captured, because the driver guard returns first. -/
theorem c7_empty_frame_noop (st : SessionState) (data : TelemetryData)
    (h : data.frame = none ∨ ∃ fr, data.frame = some fr ∧ fr.drivers = []) :
    onTelemetryData st data = st := by
  unfold onTelemetryData
  rcases h with hn | ⟨fr, hf, hd⟩
  · rw [hn]
  · rw [hf]
    simp only [if_pos hd]

def c7data : TelemetryData := ⟨some ⟨some 99, []⟩, some 4321⟩

def c7state : SessionState := ingestAll [c4frameA]

/-- Witness for C7: a driverless message carrying a session time and a
circuit length leaves a non-trivial state untouched. -/
theorem c7_empty_frame_noop_witness :
    (c7data.frame = none ∨ ∃ fr, c7data.frame = some fr ∧ fr.drivers = [])
    ∧ onTelemetryData c7state c7data = c7state := by
  have h : c7data.frame = none ∨ ∃ fr, c7data.frame = some fr ∧ fr.drivers = [] :=
    Or.inr ⟨⟨some 99, []⟩, rfl, rfl⟩
  exact ⟨h, c7_empty_frame_noop c7state c7data h⟩

/-! ### Query behaviour -/

/-- The guard of `_redraw_time` / `_redraw_lap`: the mode's buffer is either
absent or empty (both falsy in the source). -/
def relevantEmpty (st : SessionState) (code : String) : Mode → Prop
  | Mode.time => (alookup code st.time_buffers).getD [] = []
  | Mode.lap => ((alookup code st.lap_buffers).map LapBuffer.samples).getD [] = []

/-- C5: a query for an unknown competitor, or for one whose mode-relevant
buffer is empty, takes the `_clear_lines` path: every line is set to the
empty sequence and the axes are left at their sentinel/default limits
(`xlim = none`); `redraw` is a total function, so no error is ever raised. -/
theorem c5_empty_query (st : SessionState) (code : String) (mode : Mode)
    (h : relevantEmpty st code mode) :
    (redraw st mode code).1 = clearLines := by
  unfold redraw
  by_cases hc : code = ""
  · rw [if_pos hc]
  · rw [if_neg hc]
    cases mode with
    | time =>
      unfold redrawTime
      unfold relevantEmpty at h
      rw [h]
    | lap =>
      unfold redrawLap
      unfold relevantEmpty at h
      cases hl : alookup code st.lap_buffers with
      | none => rfl
      | some lb =>
        rw [hl] at h
        simp at h
        dsimp only
        simp [h]

/-- Witness for C5: `query("ZZZ", Time)` on the empty session. -/
theorem c5_empty_query_witness :
    relevantEmpty initialState "ZZZ" Mode.time
    ∧ (redraw initialState Mode.time "ZZZ").1 = clearLines := by
  have h : relevantEmpty initialState "ZZZ" Mode.time := rfl
  exact ⟨h, c5_empty_query initialState "ZZZ" Mode.time h⟩

theorem redraw_pure (st : SessionState) (mode : Mode) (code : String) :
    (redraw st mode code).2 = st := by
  unfold redraw
  by_cases hc : code = ""
  · rw [if_pos hc]
  · rw [if_neg hc]
    cases mode with
    | time =>
      unfold redrawTime
      cases h : (alookup code st.time_buffers).getD [] <;> rfl
    | lap =>
      unfold redrawLap
      cases h : alookup code st.lap_buffers with
      | none => rfl
      | some lb =>
        dsimp only
        cases hs : lb.samples <;> rfl

/-- C6: the query path is a pure read — the state it hands back is the input
state, so no time buffer, lap buffer, lap length or circuit length ever
changes — and hence switching the mode away and back with no intervening
ingest returns a bit-identical render result. -/
theorem c6_query_pure :
    (∀ (st : SessionState) (mode : Mode) (code : String),
        (redraw st mode code).2 = st)
    ∧ ∀ (st : SessionState) (m1 m2 : Mode) (code1 code2 : String),
        (redraw (redraw (redraw st m1 code1).2 m2 code2).2 m1 code1).1
          = (redraw st m1 code1).1 := by
  refine ⟨redraw_pure, fun st m1 m2 code1 code2 => ?_⟩
  rw [redraw_pure, redraw_pure]

/-! ### Field normalization (C8) -/

theorem appendSample_time_last (st : SessionState) (code : String) (dr : RawDriver)
    (t : ℚ) :
    ((alookup code (appendSample st code dr t).time_buffers).getD []).getLast?
      = some (normTimeSample dr t) := by
  rw [appendSample_time_self, Option.getD_some]
  refine dropWhile_append_getLast _ ?_ _
  simp only [decide_eq_false_iff_not, not_lt, normTimeSample]
  have : (0 : ℚ) ≤ TIME_WINDOW := by norm_num [TIME_WINDOW]
  linarith

theorem appendSample_lap_last (st : SessionState) (code : String) (dr : RawDriver)
    (t : ℚ) :
    ∃ lb, alookup code (appendSample st code dr t).lap_buffers = some lb
      ∧ lb.samples.getLast?
          = some (normLapSample dr (dr.dist.getD 0 - lb.start_dist)) := by
  unfold appendSample
  simp only [ensure_lap_self, Option.getD_some, alookup_aset_self]
  refine ⟨_, rfl, ?_⟩
  rw [List.getLast?_concat]
  rfl

def c8missing : RawDriver := ⟨some 100, some 3, some 50, some (1/2), none, some 1⟩

def c8first : RawDriver := ⟨some 100, some 3, some 50, some (1/2), some 100, some 1⟩

def c8frames : List TelemetryData :=
  [⟨some ⟨some 0, [("A", c8first)]⟩, none⟩,
   ⟨some ⟨some 1, [("A", c8missing)]⟩, none⟩]

/-- Counterexample to C8 as stated: a missing `dist` is not *stored* as 0 —
it is normalized to 0 before lap re-basing, so the stored lap-relative
distance is `0 − lap_start_distance`; here the second sample of lap 1
(started at raw distance 100) carries no `dist` and is stored with
distance `−100`, not `0`. -/
theorem c8_counterexample :
    c8missing.dist = none
    ∧ (alookup "A" (ingestAll c8frames).lap_buffers).map
        (fun lb => lb.samples.map LapSample.dist) = some [0, -100]
    ∧ (-100 : ℚ) ≠ 0 := by
  refine ⟨rfl, ?_, by norm_num⟩
  simp [c8frames, c8first, c8missing, ingestAll, onTelemetryData, appendSample,
    ensureBuffers, initialState, alookup, aset, pruneOld, TIME_WINDOW,
    emptyLapBuffer, List.dropWhile_cons]

def c8brake : RawDriver := ⟨none, none, none, some (73/100), none, none⟩

/-- C8 (amended): the sample stored in the time buffer normalizes every
missing numeric field to 0 and scales the raw brake fraction by 100; the
sample stored in the lap buffer carries the same normalized fields, with the
(possibly 0-defaulted) raw distance re-based by the lap's `start_dist`.  A
driver record carrying only `brake = 0.73` is stored with
`speed = gear = throttle = 0` and `brake = 73`. -/
theorem c8_normalization :
    (∀ (st : SessionState) (code : String) (dr : RawDriver) (t : ℚ),
      ((alookup code (appendSample st code dr t).time_buffers).getD []).getLast?
        = some ⟨t, dr.speed.getD 0, dr.gear.getD 0, dr.throttle.getD 0,
                dr.brake.getD 0 * 100⟩
      ∧ ∃ lb, alookup code (appendSample st code dr t).lap_buffers = some lb
          ∧ lb.samples.getLast?
              = some ⟨dr.dist.getD 0 - lb.start_dist, dr.speed.getD 0,
                      dr.gear.getD 0, dr.throttle.getD 0, dr.brake.getD 0 * 100⟩)
    ∧ ((alookup "A" (appendSample initialState "A" c8brake 0).time_buffers).getD
        []).getLast? = some ⟨0, 0, 0, 0, 73⟩ := by
  constructor
  · intro st code dr t
    exact ⟨appendSample_time_last st code dr t, appendSample_lap_last st code dr t⟩
  · rw [appendSample_time_last initialState "A" c8brake 0]
    simp [normTimeSample, c8brake]

/-! ### Lap-mode axis extent (C3) -/

def c3data (tq : ℚ) (lapN : Int) (d : ℚ) : TelemetryData :=
  ⟨some ⟨some tq, [("A", ⟨some 1, some 1, some 1, some 0, some d, some lapN⟩)]⟩, none⟩

def c3frames : List TelemetryData := [c3data 0 1 100, c3data 1 2 105, c3data 2 2 205]

def c3state : SessionState := ingestAll c3frames

/-- Counterexample to C3 as stated: `c3state` is reachable, its competitor
"A" has `last_completed_lap_length_m` *set* (to `0`: lap 1 contained only
its re-based trigger sample) and no circuit length, yet the lap-mode extent
is the buffer maximum `100`, not the set lap length `0` — Python `or`
treats the stored `0.0` as absent. -/
theorem c3_counterexample :
    c3state.circuit_length_m = none
    ∧ alookup "A" c3state.lap_lengths = some 0
    ∧ (redraw c3state Mode.lap "A").1.xlim = some (0, 100)
    ∧ (redraw c3state Mode.lap "A").1.xlim ≠ some (0, 0) := by
  refine ⟨?_, ?_, ?_, ?_⟩ <;>
    simp [c3state, c3frames, c3data, ingestAll, onTelemetryData, appendSample,
      ensureBuffers, initialState, alookup, aset, pruneOld, TIME_WINDOW,
      emptyLapBuffer, List.dropWhile_cons, redraw, redrawLap, pyOr, listMax] <;>
    norm_num

/-- C3 (amended): in Lap mode on a competitor whose lap buffer is non-empty,
the x-axis extent is `(0, e)` where `e` resolves through the fallback chain
in order: (1) `circuit_length_m` if set (and nonzero — which holds at every
reachable state), (2) this competitor's `last_completed_lap_length_m` if set
*and nonzero*, (3) the maximum buffered lap-relative distance. -/
theorem c3_lap_extent_fallback (st : SessionState) (code : String)
    (lb : LapBuffer) (hlb : alookup code st.lap_buffers = some lb)
    (hne : lb.samples ≠ []) (hcode : ¬ code = "") :
    (∀ c : ℚ, st.circuit_length_m = some c → ¬ c = 0 →
        (redraw st Mode.lap code).1.xlim = some (0, c))
    ∧ (st.circuit_length_m = none →
        ∀ L : ℚ, alookup code st.lap_lengths = some L → ¬ L = 0 →
        (redraw st Mode.lap code).1.xlim = some (0, L))
    ∧ (st.circuit_length_m = none →
        (alookup code st.lap_lengths = none ∨ alookup code st.lap_lengths = some 0) →
        (redraw st Mode.lap code).1.xlim
          = some (0, listMax (lb.samples.map LapSample.dist))) := by
  have hred : ∀ e : ℚ,
      pyOr st.circuit_length_m
        (pyOr (alookup code st.lap_lengths) (listMax (lb.samples.map LapSample.dist)))
        = e →
      (redraw st Mode.lap code).1.xlim = some (0, e) := by
    intro e he
    unfold redraw redrawLap
    rw [if_neg hcode]
    dsimp only
    rw [hlb]
    dsimp only
    cases hs : lb.samples with
    | nil => exact absurd hs hne
    | cons s0 rest =>
      dsimp only
      rw [← hs, he]
  refine ⟨fun c hc hcz => ?_, fun hc L hL hLz => ?_, fun hc hL => ?_⟩
  · exact hred c (by rw [hc]; simp [pyOr, hcz])
  · exact hred L (by rw [hc, hL]; simp [pyOr, hLz])
  · refine hred _ ?_
    rcases hL with h0 | h0 <;> rw [hc, h0] <;> simp [pyOr]

def c3lb : LapBuffer := ⟨some 2, 105, [⟨0, 1, 1, 1, 0⟩, ⟨100, 1, 1, 1, 0⟩]⟩

/-- Witness for C3 at the reachable `c3state`: circuit length unset, lap
length set to `0`, so the extent is the buffered maximum `100`. -/
theorem c3_lap_extent_fallback_witness :
    alookup "A" c3state.lap_buffers = some c3lb
    ∧ c3lb.samples ≠ []
    ∧ c3state.circuit_length_m = none
    ∧ alookup "A" c3state.lap_lengths = some 0
    ∧ (redraw c3state Mode.lap "A").1.xlim
        = some (0, listMax (c3lb.samples.map LapSample.dist)) := by
  have hlb : alookup "A" c3state.lap_buffers = some c3lb := by
    simp [c3state, c3frames, c3data, c3lb, ingestAll, onTelemetryData, appendSample,
      ensureBuffers, initialState, alookup, aset, pruneOld, TIME_WINDOW,
      emptyLapBuffer, List.dropWhile_cons]
    norm_num
  have hne : c3lb.samples ≠ [] := by simp [c3lb]
  have hcirc : c3state.circuit_length_m = none := by
    rw [c3state, ingestAll_circuit]
    simp [c3frames, c3data, specCircuit, List.findSome?, qualCircuit]
  have hlen : alookup "A" c3state.lap_lengths = some 0 := by
    simp [c3state, c3frames, c3data, ingestAll, onTelemetryData, appendSample,
      ensureBuffers, initialState, alookup, aset, pruneOld, TIME_WINDOW,
      emptyLapBuffer, List.dropWhile_cons]
  exact ⟨hlb, hne, hcirc, hlen,
    (c3_lap_extent_fallback c3state "A" c3lb hlb hne (by simp)).2.2 hcirc
      (Or.inr hlen)⟩

/-! ### Lap-absent streams (C10) -/

/-- The raw (0-defaulted) distances a driver list contributes for `code`. -/
def rawDistsOfDrivers (code : String) (ds : List (String × RawDriver)) : List ℚ :=
  (ds.filter (fun p => p.1 == code)).map (fun p => p.2.dist.getD 0)

/-- The raw distances one message contributes for `code` (nothing when the
ingestion guards reject it). -/
def frameDists (code : String) (data : TelemetryData) : List ℚ :=
  match data.frame with
  | none => []
  | some fr => if fr.drivers = [] then [] else rawDistsOfDrivers code fr.drivers

/-- The raw distances a stream contributes for `code`, in order. -/
def rawDists (code : String) (frames : List TelemetryData) : List ℚ :=
  (frames.map (frameDists code)).flatten

/-- State of a competitor that has never reported a lap number: either never
sighted, or a lap buffer with `current_lap` unset, `start_dist = 0`, and the
stored lap-relative distances equal to the raw ones (`ds`). -/
def LapFree (st : SessionState) (code : String) (ds : List ℚ) : Prop :=
  (alookup code st.lap_buffers = none ∧ ds = [])
  ∨ ∃ lb, alookup code st.lap_buffers = some lb ∧ lb.lap = none
      ∧ lb.start_dist = 0 ∧ lb.samples.map LapSample.dist = ds

theorem lapFree_append_self {st : SessionState} {code : String} {ds : List ℚ}
    {dr : RawDriver} (h : LapFree st code ds) (hlap : dr.lap = none) (t : ℚ) :
    LapFree (appendSample st code dr t) code (ds ++ [dr.dist.getD 0]) := by
  have hchar := @appendSample_lap_noreset code dr st t (Or.inl hlap)
  rcases h with ⟨hnone, hds⟩ | ⟨lb, hlb, hl, hs, hmap⟩
  · right
    rw [hnone] at hchar
    simp only [Option.getD_none, emptyLapBuffer] at hchar
    refine ⟨_, hchar.1, rfl, rfl, ?_⟩
    simp [normLapSample, hds]
  · right
    rw [hlb] at hchar
    simp only [Option.getD_some] at hchar
    refine ⟨_, hchar.1, hl, hs, ?_⟩
    simp [normLapSample, hmap, hs]

theorem lapFree_append_other {st : SessionState} {code : String} {ds : List ℚ}
    {c : String} {dr : RawDriver} (h : LapFree st code ds) (hc : ¬ c = code)
    (t : ℚ) : LapFree (appendSample st c dr t) code ds := by
  have heq := @appendSample_lap_ne code c (fun e => hc e.symm) st dr t
  rcases h with ⟨hnone, hds⟩ | ⟨lb, hlb, hl, hs, hmap⟩
  · exact Or.inl ⟨heq.trans hnone, hds⟩
  · exact Or.inr ⟨lb, heq.trans hlb, hl, hs, hmap⟩

theorem lapFree_foldDrivers (code : String) (T : ℚ) :
    ∀ (ds0 : List (String × RawDriver)) (st : SessionState) (acc : List ℚ),
      LapFree st code acc →
      (∀ p ∈ ds0, p.1 = code → p.2.lap = none) →
      LapFree (ds0.foldl (fun s p => appendSample s p.1 p.2 T) st) code
        (acc ++ rawDistsOfDrivers code ds0) := by
  intro ds0
  induction ds0 with
  | nil => intro st acc h _; simpa [rawDistsOfDrivers] using h
  | cons p rest ih =>
    intro st acc h hall
    rcases p with ⟨c, dr⟩
    by_cases hc : c = code
    · subst hc
      have hlap : dr.lap = none := hall (c, dr) (List.mem_cons_self _ _) rfl
      have hnext := ih (appendSample st c dr T) (acc ++ [dr.dist.getD 0])
        (lapFree_append_self h hlap T)
        (fun q hq => hall q (List.mem_cons_of_mem _ hq))
      simpa [rawDistsOfDrivers, List.filter_cons, List.append_assoc] using hnext
    · have hnext := ih (appendSample st c dr T) acc
        (lapFree_append_other h hc T)
        (fun q hq => hall q (List.mem_cons_of_mem _ hq))
      simpa [rawDistsOfDrivers, List.filter_cons, hc] using hnext

theorem lapFree_congr {st st' : SessionState} {code : String} {ds : List ℚ}
    (heq : st'.lap_buffers = st.lap_buffers) (h : LapFree st code ds) :
    LapFree st' code ds := by
  rcases h with ⟨hnone, hds⟩ | ⟨lb, hlb, hl, hs, hmap⟩
  · exact Or.inl ⟨heq ▸ hnone, hds⟩
  · exact Or.inr ⟨lb, heq ▸ hlb, hl, hs, hmap⟩

theorem circuitCapture_lap_buffers (st : SessionState) (data : TelemetryData) :
    (match st.circuit_length_m, data.circuit_length_m with
      | none, some c => if ¬ c = 0 then { st with circuit_length_m := some c } else st
      | _, _ => st).lap_buffers = st.lap_buffers := by
  cases st.circuit_length_m <;> cases data.circuit_length_m <;> simp
  split <;> rfl

theorem lapFree_onData {code : String} (data : TelemetryData) (st : SessionState)
    (acc : List ℚ) (h : LapFree st code acc)
    (hall : ∀ fr, data.frame = some fr →
      ∀ p ∈ fr.drivers, p.1 = code → p.2.lap = none) :
    LapFree (onTelemetryData st data) code (acc ++ frameDists code data) := by
  unfold onTelemetryData frameDists
  cases hf : data.frame with
  | none => simpa using h
  | some fr =>
    by_cases hd : fr.drivers = []
    · simp only [if_pos hd]
      simpa using h
    · simp only [if_neg hd]
      exact lapFree_foldDrivers code (fr.t.getD 0) fr.drivers _ acc
        (lapFree_congr (circuitCapture_lap_buffers st data) h) (hall fr hf)

theorem lapFree_foldFrames (code : String) :
    ∀ (frames : List TelemetryData) (st : SessionState) (acc : List ℚ),
      LapFree st code acc →
      (∀ d ∈ frames, ∀ fr, d.frame = some fr →
        ∀ p ∈ fr.drivers, p.1 = code → p.2.lap = none) →
      LapFree (frames.foldl onTelemetryData st) code (acc ++ rawDists code frames) := by
  intro frames
  induction frames with
  | nil => intro st acc h _; simpa [rawDists] using h
  | cons f rest ih =>
    intro st acc h hall
    have h1 := lapFree_onData f st acc h (fun fr hfr => hall f (List.mem_cons_self _ _) fr hfr)
    have h2 := ih (onTelemetryData st f) _ h1
      (fun d hd => hall d (List.mem_cons_of_mem _ hd))
    simpa [rawDists, List.append_assoc] using h2

/-- C10: for a competitor none of whose ingested samples has carried a lap
number, the lap window keeps `current_lap` unset and `lap_start_distance`
at 0, and the stored lap-relative distances are exactly the raw
(0-defaulted) `dist` values of its samples, in order — no reset is ever
triggered by lap-absent samples. -/
theorem c10_lap_absent (frames : List TelemetryData) (code : String)
    (h : ∀ d ∈ frames, ∀ fr, d.frame = some fr →
          ∀ p ∈ fr.drivers, p.1 = code → p.2.lap = none) :
    LapFree (ingestAll frames) code (rawDists code frames) := by
  have h0 : LapFree initialState code [] := Or.inl ⟨rfl, rfl⟩
  simpa [ingestAll] using lapFree_foldFrames code frames initialState [] h0 h

def c10dr (d : ℚ) : RawDriver := ⟨some 50, some 2, some 10, some 0, some d, none⟩

def c10frames : List TelemetryData :=
  [⟨some ⟨some 0, [("A", c10dr 5)]⟩, none⟩,
   ⟨some ⟨some 1, [("A", c10dr 9)]⟩, none⟩]

/-- Witness for C10 at a concrete two-message lap-free stream. -/
theorem c10_lap_absent_witness :
    (∀ d ∈ c10frames, ∀ fr, d.frame = some fr →
        ∀ p ∈ fr.drivers, p.1 = "A" → p.2.lap = none)
    ∧ LapFree (ingestAll c10frames) "A" (rawDists "A" c10frames) := by
  have h : ∀ d ∈ c10frames, ∀ fr, d.frame = some fr →
      ∀ p ∈ fr.drivers, p.1 = "A" → p.2.lap = none := by
    simp [c10frames, c10dr]
  exact ⟨h, c10_lap_absent c10frames "A" h⟩

end F1Replay
